import Mathlib

/-!
Shallow embedding of `src/contracts/eoslib/generic_currency.hpp`:
the `generic_currency` token ledger and the `relay_contract`
bonding-curve converter.  Token amounts are modelled as `Nat`
(the source's `token<uint64_t,Contract>`), account names as `Nat`,
and fallible operations return `Except LedgerError`.
-/

namespace Evt

/-- Error taxonomy of the spec (§7).  `Underflow` is additionally modelled
from the spec's data model: token amounts are exact and non-negative, so a
token subtraction whose result would be negative cannot produce a token
amount (the `token` class itself is not part of `src/`). -/
inductive LedgerError where
  | Unauthorized
  | InsufficientBalance
  | DegenerateCurve
  | MalformedRequest
  | SelfConversionRejected
  | SlippageExceeded
  | UnexpectedNotification
  | Underflow
deriving DecidableEq, Repr

/-- Modelled from the spec: the `token` arithmetic lives in eoslib headers
that are not part of `src/`; per §4.2 "any division by a supply/balance of
zero fails with `DegenerateCurve` rather than producing an undefined
result", and division truncates toward zero (`Nat` division). -/
def checkedDiv (a b : Nat) : Except LedgerError Nat :=
  if b = 0 then .error .DegenerateCurve else .ok (a / b)

/-- Modelled from the spec: token amounts are exact, non-negative
fixed-point integers (§3), so a subtraction that would go negative fails
instead of producing a negative or wrapped value. -/
def checkedSub (a b : Nat) : Except LedgerError Nat :=
  if a < b then .error .Underflow else .ok (a - b)

/-- One currency's ledger: `currency_stats::supply` plus the per-account
singleton table (`accounts`), modelled as an association list of
(account name, balance) rows. -/
structure Currency where
  supply : Nat
  accounts : List (Nat × Nat)
deriving DecidableEq, Repr

/-- Raw singleton-table lookup: the first row stored under this account. -/
def tableFind : List (Nat × Nat) → Nat → Option Nat
  | [], _ => none
  | (k, v) :: t, a => if k = a then some v else tableFind t a

/-- Singleton-table write: replace the first row under this account, or
append a fresh row. -/
def tableSet : List (Nat × Nat) → Nat → Nat → List (Nat × Nat)
  | [], a, b => [(a, b)]
  | (k, v) :: t, a, b => if k = a then (a, b) :: t else (k, v) :: tableSet t a b

/-- `generic_currency::get_balance` (source lines 42-44).  Modelled from the
spec: the singleton table's `get_or_create` is in `eoslib/singleton.hpp`,
which is not part of `src/`; per §4.1 reading returns the stored balance or
zero and "never creates a stored record as an observable side effect". -/
def get_balance (c : Currency) (owner : Nat) : Nat :=
  (tableFind c.accounts owner).getD 0

/-- `generic_currency::set_balance` (source lines 46-48). -/
def set_balance (c : Currency) (owner b : Nat) : Currency :=
  { c with accounts := tableSet c.accounts owner b }

/-- `balance_of` as the spec's read-only query (§4.1): the returned value
together with the (unchanged) ledger after the read. -/
def balance_of (c : Currency) (owner : Nat) : Nat × Currency :=
  (get_balance c owner, c)

/-- `generic_currency::on(transfer)` (source lines 63-69): debit `f`,
credit `t`.  `require_auth`/`require_recipient` are host collaborators
(§6) and carry no ledger effect.  Modelled from the spec: the token
subtraction's underflow check is in the missing `token` class; per §4.1
a transfer "fails with `InsufficientBalance` if `from`'s balance <
`amount`". -/
def on_transfer (c : Currency) (f t q : Nat) : Except LedgerError Currency :=
  if get_balance c f < q then .error .InsufficientBalance
  else
    let c1 := set_balance c f (get_balance c f - q)
    .ok (set_balance c1 t (get_balance c1 t + q))

/-- `generic_currency::on(issue)` (source lines 50-60): bump the supply,
credit the issuing account `code`, then transfer to the recipient.
Modelled from the spec: `inline_transfer` (source lines 71-80) is an
unfinished stub that builds a transfer action; per §4.1 issue "performs an
internal transfer of `amount` from issuer to `to`", embedded as
`on_transfer`. -/
def on_issue (code : Nat) (c : Currency) (toAcct q : Nat) : Except LedgerError Currency :=
  let c1 : Currency := { c with supply := c.supply + q }
  let c2 := set_balance c1 code (get_balance c1 code + q)
  on_transfer c2 code toAcct q

/-- One ledger operation of a single currency (§8 "sequences of
`issue`/`transfer` operations on one currency"). -/
inductive LedgerOp where
  | issue (toAcct q : Nat)
  | transfer (f t q : Nat)
deriving DecidableEq, Repr

/-- Apply one operation atomically: a failed operation performs no ledger
write ("each either fully completes or fails before any ledger write"). -/
def ledgerStep (code : Nat) (c : Currency) : LedgerOp → Currency
  | .issue toAcct q =>
    match on_issue code c toAcct q with
    | .ok c2 => c2
    | .error _ => c
  | .transfer f t q =>
    match on_transfer c f t q with
    | .ok c2 => c2
    | .error _ => c

/-- Run a sequence of ledger operations. -/
def runOps (code : Nat) (c : Currency) (ops : List LedgerOp) : Currency :=
  ops.foldl (ledgerStep code) c

/-- Sum of all stored account balances of one currency. -/
def sumBalances (c : Currency) : Nat :=
  (c.accounts.map Prod.snd).sum

/-- The conservation invariant: `supply == Σ balances`. -/
def conserved (c : Currency) : Prop :=
  c.supply = sumBalances c

/-- `relay_contract::relay_state` (source lines 136-139). -/
structure relay_state where
  supply : Nat
  balance : Nat
deriving DecidableEq, Repr

/-- `relay_contract::relay_args` (source lines 141-144); the source
declares `min_return_currency` but every use site reads `args.min_return`. -/
structure relay_args where
  to_currency_type : Nat
  min_return : Nat
deriving DecidableEq, Repr

/-- `relay_contract::connector::convert_to_relay` (source lines 101-117).
`balance` is `currency_type::get_balance(RelayAccount)`, which already
reflects the incoming credit; the returned pair is (relay tokens minted,
updated relay state). -/
def convert_to_relay (Weight Base inAmt balance : Nat) (st : relay_state) :
    Except LedgerError (Nat × relay_state) := do
  let previous_balance ← checkedSub balance inAmt
  let init_price ← checkedDiv (previous_balance * Base) (Weight * st.supply)
  let init_out := init_price * inAmt
  let out_price ← checkedDiv (balance * Base) (Weight * (st.supply + init_out))
  let final_out := out_price * inAmt
  .ok (final_out, ⟨st.supply + final_out, st.balance + final_out⟩)

/-- The spec's description of `convert_to_relay` (§4.2 steps 2-8), stated
with the spec's own names, for comparison against the embedding of the
source: previousBalance, startPrice, provisionalOut, endPrice, finalOut,
and the state updated by finalOut on both fields. -/
def convert_to_relay_formula (Weight Base amountIn connectorBalance : Nat)
    (st : relay_state) : Nat × relay_state :=
  let previousBalance := connectorBalance - amountIn
  let startPrice := previousBalance * Base / (Weight * st.supply)
  let provisionalOut := startPrice * amountIn
  let endPrice := connectorBalance * Base / (Weight * (st.supply + provisionalOut))
  let finalOut := endPrice * amountIn
  (finalOut, ⟨st.supply + finalOut, st.balance + finalOut⟩)

/-- `relay_contract::connector::convert_from_relay` (source lines 120-132).
`to_balance` is `CurrencyType::get_balance(RelayAccount)`.  Modelled from
the spec in one place: the source's provisional-output line reads an
undefined symbol `in`; per §4.2/§9 the redemption amount `relay_in` is
used there. -/
def convert_from_relay (Weight Base relay_in to_balance : Nat) (st : relay_state) :
    Except LedgerError (Nat × relay_state) := do
  let init_price ← checkedDiv (to_balance * Base) (Weight * st.supply)
  let init_out := init_price * relay_in
  let supply2 ← checkedSub st.supply relay_in
  let balance2 ← checkedSub st.balance relay_in
  let diff ← checkedSub to_balance init_out
  let out_price ← checkedDiv (diff * Base) (Weight * supply2)
  .ok (out_price * relay_in, ⟨supply2, balance2⟩)

/-- The §8 round trip: convert `x` units of a connector currency to relay,
then immediately convert the resulting relay amount back through the same
connector.  The connector balance seen by both calls is the same ledger
read (no transfer occurs in between). -/
def round_trip (Weight Base x balance : Nat) (st : relay_state) :
    Except LedgerError Nat := do
  let r ← convert_to_relay Weight Base x balance st
  let o ← convert_from_relay Weight Base r.1 balance r.2
  .ok o.1

/-- Which connector an incoming transfer arrived through
(the `ConnectorType` template argument). -/
inductive Conn where
  | first
  | second
deriving DecidableEq, Repr

/-- The currency account name behind a connector. -/
def connCurrencyId (fc sc : Nat) : Conn → Nat
  | .first => fc
  | .second => sc

/-- The two connector-currency ledgers of the relay contract
(`first_currency`, `second_currency`). -/
structure RelayWorld where
  first : Currency
  second : Currency
deriving DecidableEq, Repr

/-- `currency_type::get_balance(RelayAccount)` for a connector. -/
def connBalance (ra : Nat) (w : RelayWorld) : Conn → Nat
  | .first => get_balance w.first ra
  | .second => get_balance w.second ra

/-- What a completed conversion hands to the settlement step: recipient,
amount, the currency the amount is denominated in, and the relay state to
persist. -/
structure SendResult where
  toAcct : Nat
  quantity : Nat
  currency : Nat
  st : relay_state
deriving DecidableEq, Repr

/-- Modelled from the spec: `save_and_send` is referenced but never defined
in `src/`; per §4.3 it compares the computed output against the request's
minimum acceptable output (failing with `SlippageExceeded`), persists the
relay state and sends the output to the trader. -/
def save_and_send (trader : Nat) (st : relay_state) (output min_return currency : Nat) :
    Except LedgerError SendResult :=
  if output < min_return then .error .SlippageExceeded
  else .ok ⟨trader, output, currency, st⟩

/-- `relay_contract::on_convert<ConnectorType>` (source lines 173-190):
an incoming connector-currency transfer is first converted to relay; if the
requested target is the relay currency the relay amount is sent, otherwise
the source line 187 converts back through `ConnectorType` — the *source*
connector — and sends that output (denominated in the source connector's
currency). -/
def on_convert_connector (Weight Base ra fc sc : Nat) (w : RelayWorld) (src : Conn)
    (trans_from trans_quantity : Nat) (args : relay_args) (st : relay_state) :
    Except LedgerError SendResult := do
  let r ← convert_to_relay Weight Base trans_quantity (connBalance ra w src) st
  if args.to_currency_type = ra then
    save_and_send trans_from r.2 r.1 args.min_return ra
  else
    let o ← convert_from_relay Weight Base r.1 (connBalance ra w src) r.2
    save_and_send trans_from o.2 o.1 args.min_return (connCurrencyId fc sc src)

/-- Which unpack-and-dispatch target `relay_contract::apply` selects. -/
inductive Handler where
  | relayTransfer
  | firstTransfer
  | secondTransfer
deriving DecidableEq, Repr

/-- The host's name for the transfer action (`N(transfer)`). -/
def N_transfer : Nat := 0

/-- `relay_contract::apply` (source lines 235-253).  The branch structure is
kept exactly as written: the third branch repeats the comparison
`code == first_currency` (source line 245) even though its body unpacks a
`second_currency::transfer`; a code matching neither comparison falls into
the final `assert(false, "unknown action notification")`, embedded as
`UnexpectedNotification` (§7).  A matched code with a non-transfer action
falls through with no dispatch (`none`). -/
def relay_apply (ra fc sc code action : Nat) :
    Except LedgerError (Option Handler) :=
  if code = ra then
    .ok (if action = N_transfer then some .relayTransfer else none)
  else if code = fc then
    .ok (if action = N_transfer then some .firstTransfer else none)
  else if code = fc then
    .ok (if action = N_transfer then some .secondTransfer else none)
  else
    .error .UnexpectedNotification

/-! ## Singleton-table lemmas -/

theorem tableFind_tableSet_self (l : List (Nat × Nat)) (a b : Nat) :
    tableFind (tableSet l a b) a = some b := by
  induction l with
  | nil => simp [tableSet, tableFind]
  | cons kv t ih =>
    obtain ⟨k, v⟩ := kv
    by_cases hk : k = a
    · subst hk; simp [tableSet, tableFind]
    · simp [tableSet, tableFind, hk, ih]

theorem tableFind_tableSet_ne (l : List (Nat × Nat)) (a b x : Nat) (hx : x ≠ a) :
    tableFind (tableSet l a b) x = tableFind l x := by
  induction l with
  | nil => simp [tableSet, tableFind, Ne.symm hx]
  | cons kv t ih =>
    obtain ⟨k, v⟩ := kv
    by_cases hk : k = a
    · subst hk; simp [tableSet, tableFind, Ne.symm hx]
    · simp [tableSet, tableFind, hk, ih]

theorem sum_tableSet (l : List (Nat × Nat)) (a b : Nat) :
    ((tableSet l a b).map Prod.snd).sum + (tableFind l a).getD 0
      = (l.map Prod.snd).sum + b := by
  induction l with
  | nil => simp [tableSet, tableFind]
  | cons kv t ih =>
    obtain ⟨k, v⟩ := kv
    by_cases hk : k = a
    · subst hk; simp [tableSet, tableFind]; omega
    · simp [tableSet, tableFind, hk]; omega

/-! ## Ledger lemmas -/

theorem get_balance_set_balance_self (c : Currency) (a b : Nat) :
    get_balance (set_balance c a b) a = b := by
  simp [get_balance, set_balance, tableFind_tableSet_self]

theorem get_balance_set_balance_ne (c : Currency) (a b x : Nat) (hx : x ≠ a) :
    get_balance (set_balance c a b) x = get_balance c x := by
  simp [get_balance, set_balance, tableFind_tableSet_ne _ _ _ _ hx]

theorem supply_set_balance (c : Currency) (a b : Nat) :
    (set_balance c a b).supply = c.supply := rfl

theorem sumBalances_set_balance (c : Currency) (a b : Nat) :
    sumBalances (set_balance c a b) + get_balance c a = sumBalances c + b := by
  simpa [sumBalances, set_balance, get_balance] using sum_tableSet c.accounts a b

theorem on_transfer_ok_conserves (c c2 : Currency) (f t q : Nat)
    (h : on_transfer c f t q = .ok c2) :
    c2.supply = c.supply ∧ sumBalances c2 = sumBalances c := by
  unfold on_transfer at h
  by_cases hlt : get_balance c f < q
  · simp [hlt] at h
  · simp only [hlt, if_false, Except.ok.injEq] at h
    subst h
    refine ⟨rfl, ?_⟩
    have e1 := sumBalances_set_balance c f (get_balance c f - q)
    have e2 := sumBalances_set_balance (set_balance c f (get_balance c f - q)) t
      (get_balance (set_balance c f (get_balance c f - q)) t + q)
    omega

theorem on_transfer_total (c : Currency) (f t q : Nat) (h : q ≤ get_balance c f) :
    ∃ c2, on_transfer c f t q = .ok c2 ∧
      c2.supply = c.supply ∧ sumBalances c2 = sumBalances c := by
  cases hE : on_transfer c f t q with
  | ok c2 => exact ⟨c2, rfl, on_transfer_ok_conserves c c2 f t q hE⟩
  | error e =>
    have hlt : ¬ get_balance c f < q := by omega
    simp [on_transfer, hlt] at hE

theorem on_issue_ok (code : Nat) (c : Currency) (toA q : Nat) :
    ∃ c2, on_issue code c toA q = .ok c2 ∧
      c2.supply = c.supply + q ∧ sumBalances c2 = sumBalances c + q := by
  have hbal : get_balance (set_balance { c with supply := c.supply + q } code
      (get_balance { c with supply := c.supply + q } code + q)) code
      = get_balance { c with supply := c.supply + q } code + q :=
    get_balance_set_balance_self _ code _
  obtain ⟨c2, he, hs, hb⟩ := on_transfer_total
    (set_balance { c with supply := c.supply + q } code
      (get_balance { c with supply := c.supply + q } code + q)) code toA q (by omega)
  refine ⟨c2, ?_, ?_, ?_⟩
  · unfold on_issue
    exact he
  · rw [hs]; rfl
  · rw [hb]
    have e0 := sumBalances_set_balance { c with supply := c.supply + q } code
      (get_balance { c with supply := c.supply + q } code + q)
    have hs1 : sumBalances { c with supply := c.supply + q } = sumBalances c := rfl
    have hg1 : get_balance { c with supply := c.supply + q } code = get_balance c code := rfl
    omega

theorem ledgerStep_conserves (code : Nat) (c : Currency) (op : LedgerOp)
    (h : conserved c) : conserved (ledgerStep code c op) := by
  cases op with
  | issue toA q =>
    obtain ⟨c2, he, hs, hb⟩ := on_issue_ok code c toA q
    unfold conserved at *
    simp [ledgerStep, he, hs, hb, h]
  | transfer f t q =>
    cases hE : on_transfer c f t q with
    | ok c2 =>
      obtain ⟨hs, hb⟩ := on_transfer_ok_conserves c c2 f t q hE
      unfold conserved at *
      simp [ledgerStep, hE, hs, hb, h]
    | error e => simpa [ledgerStep, hE] using h

/-- C1: for every sequence of issue and transfer operations on one currency,
started from a ledger satisfying the conservation invariant, the total
supply recorded in the currency's stats equals the sum of all account
balances after the whole sequence — hence (instantiating at every prefix)
before and after each operation. -/
theorem claim_C1_conservation (code : Nat) (c : Currency) (h : conserved c)
    (ops : List LedgerOp) : conserved (runOps code c ops) := by
  induction ops generalizing c with
  | nil => simpa [runOps] using h
  | cons op rest ih =>
    have hstep := ledgerStep_conserves code c op h
    simpa [runOps, List.foldl] using ih (ledgerStep code c op) hstep

/-- Witness for C1 at a concrete starting ledger and operation list. -/
theorem claim_C1_conservation_witness :
    conserved (runOps 1 ⟨0, []⟩ [.issue 5 10, .transfer 5 7 4]) :=
  claim_C1_conservation 1 ⟨0, []⟩ rfl [.issue 5 10, .transfer 5 7 4]

/-- C4: a transfer whose sender balance is strictly below the amount fails
with `InsufficientBalance` and leaves the whole ledger unchanged; otherwise
it debits the sender by the amount and credits the recipient by the amount
(a self-transfer nets to the original balance). -/
theorem claim_C4_transfer (c : Currency) (f t q : Nat) :
    (get_balance c f < q →
      on_transfer c f t q = .error .InsufficientBalance ∧
      ∀ code, ledgerStep code c (.transfer f t q) = c) ∧
    (q ≤ get_balance c f → f ≠ t →
      ∃ c2, on_transfer c f t q = .ok c2 ∧
        get_balance c2 f = get_balance c f - q ∧
        get_balance c2 t = get_balance c t + q) ∧
    (q ≤ get_balance c f → f = t →
      ∃ c2, on_transfer c f t q = .ok c2 ∧ get_balance c2 t = get_balance c t) := by
  refine ⟨fun hlt => ⟨by simp [on_transfer, hlt], fun code => by simp [ledgerStep, on_transfer, hlt]⟩,
    fun hge hne => ?_, fun hge heq => ?_⟩
  · have hlt : ¬ get_balance c f < q := by omega
    refine ⟨set_balance (set_balance c f (get_balance c f - q)) t
      (get_balance (set_balance c f (get_balance c f - q)) t + q),
      by simp [on_transfer, hlt], ?_, ?_⟩
    · rw [get_balance_set_balance_ne _ _ _ _ hne, get_balance_set_balance_self]
    · rw [get_balance_set_balance_self, get_balance_set_balance_ne _ _ _ _ (Ne.symm hne)]
  · subst heq
    have hlt : ¬ get_balance c f < q := by omega
    refine ⟨set_balance (set_balance c f (get_balance c f - q)) f
      (get_balance (set_balance c f (get_balance c f - q)) f + q),
      by simp [on_transfer, hlt], ?_⟩
    rw [get_balance_set_balance_self, get_balance_set_balance_self]
    omega

/-- Witness for C4 at a concrete ledger: a failing and a succeeding transfer. -/
theorem claim_C4_transfer_witness :
    (on_transfer ⟨20, [(5, 10)]⟩ 5 7 11 = .error .InsufficientBalance ∧
      ∀ code, ledgerStep code ⟨20, [(5, 10)]⟩ (.transfer 5 7 11) = ⟨20, [(5, 10)]⟩) ∧
    (∃ c2, on_transfer ⟨20, [(5, 10)]⟩ 5 7 4 = .ok c2 ∧
      get_balance c2 5 = get_balance ⟨20, [(5, 10)]⟩ 5 - 4 ∧
      get_balance c2 7 = get_balance ⟨20, [(5, 10)]⟩ 7 + 4) :=
  ⟨(claim_C4_transfer ⟨20, [(5, 10)]⟩ 5 7 11).1 (by decide),
   (claim_C4_transfer ⟨20, [(5, 10)]⟩ 5 7 4).2.1 (by decide) (by decide)⟩

/-- C8: for an account with no stored balance row, `balance_of` returns
zero, and the read leaves the set of stored rows and every balance exactly
as before the call. -/
theorem claim_C8_balance_of (c : Currency) (o : Nat) :
    (tableFind c.accounts o = none → (balance_of c o).1 = 0) ∧
    (balance_of c o).2 = c :=
  ⟨fun h => by simp [balance_of, get_balance, h], rfl⟩

/-- Witness for C8 on an account with no stored row of a concrete ledger. -/
theorem claim_C8_balance_of_witness :
    (balance_of ⟨3, [(5, 3)]⟩ 7).1 = 0 ∧ (balance_of ⟨3, [(5, 3)]⟩ 7).2 = ⟨3, [(5, 3)]⟩ :=
  ⟨(claim_C8_balance_of ⟨3, [(5, 3)]⟩ 7).1 rfl, (claim_C8_balance_of ⟨3, [(5, 3)]⟩ 7).2⟩

/-! ## Bonding-curve lemmas -/

theorem convert_to_relay_eq (Weight Base amountIn bal : Nat) (st : relay_state)
    (hin : amountIn ≤ bal) (hW : Weight ≠ 0) (hS : st.supply ≠ 0) :
    convert_to_relay Weight Base amountIn bal st =
      .ok (convert_to_relay_formula Weight Base amountIn bal st) := by
  have h1 : Weight * st.supply ≠ 0 := Nat.mul_ne_zero hW hS
  have h2 : Weight * (st.supply + (bal - amountIn) * Base / (Weight * st.supply) * amountIn) ≠ 0 :=
    Nat.mul_ne_zero hW (by omega)
  simp [convert_to_relay, convert_to_relay_formula, checkedSub, checkedDiv,
    Nat.not_lt.mpr hin, h1, h2, bind, Except.bind]

theorem convert_from_relay_eq (Weight Base relay_in bal : Nat) (st : relay_state)
    (hW : Weight ≠ 0) (hs : relay_in < st.supply) (hb : relay_in ≤ st.balance)
    (hio : bal * Base / (Weight * st.supply) * relay_in ≤ bal) :
    convert_from_relay Weight Base relay_in bal st =
      .ok ((bal - bal * Base / (Weight * st.supply) * relay_in) * Base
            / (Weight * (st.supply - relay_in)) * relay_in,
        ⟨st.supply - relay_in, st.balance - relay_in⟩) := by
  have h1 : Weight * st.supply ≠ 0 := Nat.mul_ne_zero hW (by omega)
  have h5 : Weight * (st.supply - relay_in) ≠ 0 := Nat.mul_ne_zero hW (by omega)
  simp [convert_from_relay, checkedSub, checkedDiv, h1, h5,
    Nat.not_lt.mpr hb, Nat.not_lt.mpr (Nat.le_of_lt hs), Nat.not_lt.mpr hio,
    bind, Except.bind]

/-- C2: with the connector balance already credited with `amountIn` and
nondegenerate denominators, `convert_to_relay` computes exactly the spec's
chain previousBalance / startPrice / provisionalOut / endPrice / finalOut
with truncating division, returns finalOut, and adds finalOut to both
relay-state fields. -/
theorem claim_C2_convert_to_relay (Weight Base amountIn connectorBalance : Nat)
    (st : relay_state) (hin : amountIn ≤ connectorBalance)
    (hW : Weight ≠ 0) (hS : st.supply ≠ 0) :
    convert_to_relay Weight Base amountIn connectorBalance st =
      .ok (convert_to_relay_formula Weight Base amountIn connectorBalance st) :=
  convert_to_relay_eq Weight Base amountIn connectorBalance st hin hW hS

/-- Witness for C2 at concrete inputs. -/
theorem claim_C2_convert_to_relay_witness :
    (1:Nat) ≤ 4 ∧
    convert_to_relay 500000 1000000 1 4 ⟨1, 10⟩ =
      .ok (convert_to_relay_formula 500000 1000000 1 4 ⟨1, 10⟩) :=
  ⟨by decide, claim_C2_convert_to_relay 500000 1000000 1 4 ⟨1, 10⟩
    (by decide) (by decide) (by decide)⟩

/-- C10: with nonzero weight and supply, `convert_to_relay` on the zero
input returns zero and leaves the relay state (and, it touches no ledger,
the connector balance) unchanged. -/
theorem claim_C10_zero_input (Weight Base connectorBalance : Nat) (st : relay_state)
    (hW : Weight ≠ 0) (hS : st.supply ≠ 0) :
    convert_to_relay Weight Base 0 connectorBalance st = .ok (0, st) := by
  obtain ⟨s, b⟩ := st
  have h1 : Weight * s ≠ 0 := Nat.mul_ne_zero hW (by simpa using hS)
  simp [convert_to_relay, checkedSub, checkedDiv, h1, bind, Except.bind]

/-- Witness for C10 at concrete inputs. -/
theorem claim_C10_zero_input_witness :
    (3:Nat) ≠ 0 ∧ convert_to_relay 500000 1000000 0 5 ⟨3, 4⟩ = .ok (0, ⟨3, 4⟩) :=
  ⟨by decide, claim_C10_zero_input 500000 1000000 5 ⟨3, 4⟩ (by decide) (by decide)⟩

/-- C9: every successful conversion changes `relay_state.supply` and
`relay_state.balance` by the same amount, so their difference is
preserved. -/
theorem claim_C9_supply_balance_diff :
    (∀ Weight Base inAmt bal st out st2,
      convert_to_relay Weight Base inAmt bal st = .ok (out, st2) →
      (st2.supply : Int) - st2.balance = (st.supply : Int) - st.balance) ∧
    (∀ Weight Base relay_in bal st out st2,
      convert_from_relay Weight Base relay_in bal st = .ok (out, st2) →
      (st2.supply : Int) - st2.balance = (st.supply : Int) - st.balance) := by
  constructor
  · intro W B x bal st out st2 h
    by_cases h1 : bal < x
    · simp [convert_to_relay, checkedSub, checkedDiv, h1, bind, Except.bind] at h
    by_cases h2 : W * st.supply = 0
    · simp [convert_to_relay, checkedSub, checkedDiv, h1, h2, bind, Except.bind] at h
    by_cases h3 : W * (st.supply + (bal - x) * B / (W * st.supply) * x) = 0
    · simp [convert_to_relay, checkedSub, checkedDiv, h1, h2, h3, bind, Except.bind] at h
    · simp [convert_to_relay, checkedSub, checkedDiv, h1, h2, h3, bind, Except.bind] at h
      obtain ⟨h4, h5⟩ := h
      rw [← h5]
      dsimp only
      omega
  · intro W B r bal st out st2 h
    by_cases h1 : W * st.supply = 0
    · simp [convert_from_relay, checkedSub, checkedDiv, h1, bind, Except.bind] at h
    by_cases h2 : st.supply < r
    · simp [convert_from_relay, checkedSub, checkedDiv, h1, h2, bind, Except.bind] at h
    by_cases h3 : st.balance < r
    · simp [convert_from_relay, checkedSub, checkedDiv, h1, h2, h3, bind, Except.bind] at h
    by_cases h4 : bal < bal * B / (W * st.supply) * r
    · simp [convert_from_relay, checkedSub, checkedDiv, h1, h2, h3, h4, bind, Except.bind] at h
    by_cases h5 : W * (st.supply - r) = 0
    · simp [convert_from_relay, checkedSub, checkedDiv, h1, h2, h3, h4, h5, bind, Except.bind] at h
    · simp [convert_from_relay, checkedSub, checkedDiv, h1, h2, h3, h4, h5, bind, Except.bind] at h
      obtain ⟨h6, h7⟩ := h
      rw [← h7]
      dsimp only
      omega

/-- Witness for C9 at a concrete successful `convert_from_relay`. -/
theorem claim_C9_supply_balance_diff_witness :
    convert_from_relay 500000 1000000 1 4 ⟨3, 5⟩ = .ok (2, ⟨2, 4⟩) ∧
    (((⟨2, 4⟩ : relay_state).supply : Int) - ((⟨2, 4⟩ : relay_state).balance : Int) =
      ((⟨3, 5⟩ : relay_state).supply : Int) - ((⟨3, 5⟩ : relay_state).balance : Int)) :=
  ⟨rfl, claim_C9_supply_balance_diff.2 500000 1000000 1 4 ⟨3, 5⟩ 2 ⟨2, 4⟩ rfl⟩

/-- C7 (amended): every division checks its denominator and fails with
`DegenerateCurve` when it is zero — for `convert_to_relay` the second
denominator can only vanish with the first, while for `convert_from_relay`
the second division (source line 129) also fails with `DegenerateCurve`
when the post-deduction supply `supply - relay_in` makes its denominator
zero with every earlier step in range; with all denominators positive every
division succeeds and `convert_to_relay` (whose balance is already credited
with the input) reaches no error, but `convert_from_relay` may still fail
on a token subtraction that would go negative; when those subtractions are
in range it reaches no error either. -/
theorem claim_C7_division_guards :
    (∀ Weight Base amountIn bal st, amountIn ≤ bal → Weight * st.supply = 0 →
      convert_to_relay Weight Base amountIn bal st = .error .DegenerateCurve) ∧
    (∀ Weight Base relay_in bal st, Weight * st.supply = 0 →
      convert_from_relay Weight Base relay_in bal st = .error .DegenerateCurve) ∧
    (∀ Weight Base relay_in bal st, Weight * st.supply ≠ 0 → relay_in ≤ st.supply →
      relay_in ≤ st.balance → bal * Base / (Weight * st.supply) * relay_in ≤ bal →
      Weight * (st.supply - relay_in) = 0 →
      convert_from_relay Weight Base relay_in bal st = .error .DegenerateCurve) ∧
    (∀ Weight Base amountIn bal st, amountIn ≤ bal → Weight ≠ 0 → st.supply ≠ 0 →
      ∃ out st2, convert_to_relay Weight Base amountIn bal st = .ok (out, st2)) ∧
    (∀ Weight Base relay_in bal st, Weight ≠ 0 → relay_in < st.supply →
      relay_in ≤ st.balance → bal * Base / (Weight * st.supply) * relay_in ≤ bal →
      ∃ out st2, convert_from_relay Weight Base relay_in bal st = .ok (out, st2)) := by
  refine ⟨fun W B x bal st hin h0 => ?_, fun W B r bal st h0 => ?_,
    fun W B r bal st h1 hs hb hio h5 => ?_,
    fun W B x bal st hin hW hS => ?_, fun W B r bal st hW hs hb hio => ?_⟩
  · simp [convert_to_relay, checkedSub, checkedDiv, Nat.not_lt.mpr hin, h0,
      bind, Except.bind]
  · simp [convert_from_relay, checkedSub, checkedDiv, h0, bind, Except.bind]
  · simp [convert_from_relay, checkedSub, checkedDiv, h1, Nat.not_lt.mpr hs,
      Nat.not_lt.mpr hb, Nat.not_lt.mpr hio, h5, bind, Except.bind]
  · exact ⟨_, _, convert_to_relay_eq W B x bal st hin hW hS⟩
  · exact ⟨_, _, convert_from_relay_eq W B r bal st hW hs hb hio⟩

/-- Witness for the amended C7, instantiating all five conjuncts. -/
theorem claim_C7_division_guards_witness :
    convert_to_relay 0 1000000 1 4 ⟨7, 0⟩ = .error .DegenerateCurve ∧
    convert_from_relay 0 1000000 1 4 ⟨7, 0⟩ = .error .DegenerateCurve ∧
    convert_from_relay 500000 1000000 2 0 ⟨2, 5⟩ = .error .DegenerateCurve ∧
    (∃ out st2, convert_to_relay 500000 1000000 1 4 ⟨3, 2⟩ = .ok (out, st2)) ∧
    (∃ out st2, convert_from_relay 500000 1000000 1 4 ⟨3, 2⟩ = .ok (out, st2)) :=
  ⟨claim_C7_division_guards.1 0 1000000 1 4 ⟨7, 0⟩ (by decide) (by decide),
   claim_C7_division_guards.2.1 0 1000000 1 4 ⟨7, 0⟩ (by decide),
   claim_C7_division_guards.2.2.1 500000 1000000 2 0 ⟨2, 5⟩ (by decide) (by decide)
     (by decide) (by decide) (by decide),
   claim_C7_division_guards.2.2.2.1 500000 1000000 1 4 ⟨3, 2⟩ (by decide) (by decide) (by decide),
   claim_C7_division_guards.2.2.2.2 500000 1000000 1 4 ⟨3, 2⟩ (by decide) (by decide)
     (by decide) (by decide)⟩

/-- C7 counterexample to the claim as stated: both divisions reached by
this `convert_from_relay` call have positive denominators
(`Weight*supply = 1500000` and `Weight*(supply-relay_in) = 500000`), yet
the call fails — the provisional output 4 exceeds `to_balance = 3`, so the
token subtraction `to_balance - init_out` aborts. -/
theorem claim_C7_positive_denominators_error :
    0 < 500000 * (3:Nat) ∧ 0 < 500000 * ((3:Nat) - 2) ∧
    convert_from_relay 500000 1000000 2 3 ⟨3, 2⟩ = .error .Underflow :=
  ⟨by decide, by decide, rfl⟩

/-- C3: evaluating the code at the failing input — a round trip of 1 unit
of connector currency through the relay, at connector balance 1 (so the
pre-trade balance was 0) and relay state {supply := 1, balance := 10},
returns 4 units, strictly more than the 1 unit put in. -/
theorem claim_C3_round_trip_exceeds_input :
    round_trip 500000 1000000 1 1 ⟨1, 10⟩ = .ok 4 ∧ 1 < 4 :=
  ⟨rfl, by decide⟩

/-- C5: evaluating the code at the failing input — an incoming transfer of
2 units of the first connector currency (code `2`) requesting target
currency `3` (the second connector).  The dispatcher's else-branch (source
line 187) runs `convert_from_relay` on `ConnectorType`, the *source*
connector: the payout is 8 units denominated in currency 2, whereas
pricing through the second connector's balance (50) at the same
intermediate state would give 16 units of currency 3. -/
theorem claim_C5_source_connector_payout :
    on_convert_connector 500000 1000000 1 2 3
        ⟨⟨0, [(1, 20)]⟩, ⟨0, [(1, 50)]⟩⟩ .first 7 2 ⟨3, 0⟩ ⟨10, 10⟩
      = .ok ⟨7, 8, 2, ⟨10, 10⟩⟩ ∧
    convert_from_relay 500000 1000000 4
        (connBalance 1 ⟨⟨0, [(1, 20)]⟩, ⟨0, [(1, 50)]⟩⟩ .second) ⟨14, 14⟩
      = .ok (16, ⟨10, 10⟩) :=
  ⟨rfl, rfl⟩

/-- C6: evaluating the code at the failing input — with relay account `1`,
first currency `2` and second currency `3`, a transfer notification whose
code is the second currency (`3`) falls through to the final
unknown-notification assert, because the third branch of `apply` repeats
the comparison against the first currency; transfers coded `1` and `2`
dispatch normally. -/
theorem claim_C6_apply_second_currency :
    relay_apply 1 2 3 3 N_transfer = .error .UnexpectedNotification ∧
    relay_apply 1 2 3 2 N_transfer = .ok (some .firstTransfer) ∧
    relay_apply 1 2 3 1 N_transfer = .ok (some .relayTransfer) :=
  ⟨rfl, rfl, rfl⟩

end Evt
